import Mathlib

/-!
Verification of the Student Management System (Express + Mongoose CRUD app).

This file gives a shallow embedding of the request-handling logic of the
repository: the express-validator chains, the student CRUD route handlers
(`src/routes/studentRoutes.js`), the auth route handlers, and the Mongoose
model hooks (`src/models/Student.js`, `src/models/User.js`).  Strings are
Lean `String`s, JavaScript numbers are rationals extended with NaN and the
infinities, and the Mongo store is a list of records.  Each route handler
becomes a pure function from its (already parsed) request body and the
relevant store contents to an HTTP response value.
-/

namespace StudentMgmt

/-- Model of a JavaScript number restricted to the cases the routes
distinguish: a finite value (as a rational), NaN, or a signed infinity. -/
inductive JSNum where
  | finite (q : ℚ)
  | nan
  | inf
  | ninf
  deriving DecidableEq, Repr

/-- Number.isFinite: true exactly on finite values. -/
def JSNum.isFinite : JSNum → Bool
  | .finite _ => true
  | _ => false

/-- Whitespace as recognised by the JavaScript string functions used by the
routes (the app only ever sees ASCII whitespace). -/
def jsWhitespace (c : Char) : Bool :=
  c = ' ' ∨ c = '\t' ∨ c = '\n' ∨ c = '\r'

/-- Characters of a string with leading and trailing whitespace removed. -/
def trimChars (cs : List Char) : List Char :=
  ((cs.dropWhile jsWhitespace).reverse.dropWhile jsWhitespace).reverse

/-- Model of JavaScript String.prototype.trim. -/
def jsTrim (s : String) : String :=
  ⟨trimChars s.data⟩

/-- Model of JavaScript String.prototype.toLowerCase on the ASCII strings the
app handles. -/
def jsToLower (s : String) : String :=
  ⟨s.data.map Char.toLower⟩

/-- Model of validator.js normalizeEmail with its default options: the whole
address is lowercased. -/
def normalizeEmailModel (s : String) : String :=
  jsToLower s

/-- Numeric value of a list of decimal digit characters. -/
def digitsToNat (ds : List Char) : Nat :=
  ds.foldl (fun a c => a * 10 + (c.toNat - 48)) 0

/-- Parse a decimal mantissa (digits, optionally a dot and more digits, at
least one digit in total); the value is returned exactly, as a numerator
with a power-of-ten denominator, with the remaining input. -/
def parseMantissa (cs : List Char) : Option ((Nat × Nat) × List Char) :=
  let d1 := cs.takeWhile Char.isDigit
  let rest1 := cs.drop d1.length
  match rest1 with
  | '.' :: rest2 =>
    let d2 := rest2.takeWhile Char.isDigit
    if d1.isEmpty && d2.isEmpty then none
    else some ((digitsToNat d1 * 10 ^ d2.length + digitsToNat d2, 10 ^ d2.length),
      rest2.drop d2.length)
  | _ => if d1.isEmpty then none else some ((digitsToNat d1, 1), rest1)

/-- The exact rational value of a signed decimal mantissa num/den scaled by
ten to the exponent e (the app never relies on the rounding of binary
floats, so the exact value is the faithful reading). -/
def decValue (neg : Bool) (num den : Nat) (e : Int) : ℚ :=
  let m : Int := if neg then -(num : Int) else (num : Int)
  match e with
  | .ofNat k => mkRat (m * 10 ^ k) den
  | .negSucc k => mkRat m (den * 10 ^ (k + 1))

/-- Parse an optional exponent part e[+-]digits; when the characters after the
e do not form a valid exponent, nothing is consumed (as with JS parseFloat,
which uses the longest valid prefix). -/
def parseExponentPart (cs : List Char) : Int × List Char :=
  match cs with
  | [] => (0, [])
  | c :: rest =>
    if c = 'e' ∨ c = 'E' then
      let signRest : Int × List Char :=
        match rest with
        | '+' :: r => (1, r)
        | '-' :: r => (-1, r)
        | r => (1, r)
      let ds := signRest.2.takeWhile Char.isDigit
      if ds.isEmpty then (0, cs)
      else (signRest.1 * (digitsToNat ds : Int), signRest.2.drop ds.length)
    else (0, cs)

/-- Model of JavaScript parseFloat: skip leading whitespace, optional sign,
then the longest valid decimal-literal prefix (or Infinity); NaN when no
prefix parses. -/
def parseFloatJS (s : String) : JSNum :=
  let cs := s.data.dropWhile jsWhitespace
  let signed : Bool × List Char :=
    match cs with
    | '-' :: r => (true, r)
    | '+' :: r => (false, r)
    | _ => (false, cs)
  if signed.2.take 8 = "Infinity".data then (if signed.1 then .ninf else .inf)
  else
    match parseMantissa signed.2 with
    | none => .nan
    | some (nd, rest) =>
      .finite (decValue signed.1 nd.1 nd.2 (parseExponentPart rest).1)

/-- Model of the float syntax accepted by validator.js isFloat: the whole
string must be an optionally signed decimal literal with an optional
exponent. -/
def isFloatStr (s : String) : Option ℚ :=
  let signed : Bool × List Char :=
    match s.data with
    | '-' :: r => (true, r)
    | '+' :: r => (false, r)
    | cs => (false, cs)
  match parseMantissa signed.2 with
  | none => none
  | some (nd, rest) =>
    match rest with
    | [] => some (decValue signed.1 nd.1 nd.2 0)
    | c :: rest2 =>
      if c = 'e' ∨ c = 'E' then
        let signRest : Int × List Char :=
          match rest2 with
          | '+' :: r => (1, r)
          | '-' :: r => (-1, r)
          | r => (1, r)
        let ds := signRest.2.takeWhile Char.isDigit
        if ds.isEmpty ∨ signRest.2.drop ds.length ≠ [] then none
        else some (decValue signed.1 nd.1 nd.2 (signRest.1 * (digitsToNat ds : Int)))
      else none

/-- Model of JS Number(s) on the strings reaching it in the routes: empty or
all-whitespace is 0; otherwise a full decimal parse, with none standing for
NaN. -/
def jsNumber (s : String) : Option ℚ :=
  let t := jsTrim s
  if t = "" then some 0 else isFloatStr t

/-- Pattern from the rollNumber validator and the Student schema,
one or more of a-z, 0-9 or hyphen, case-insensitive. -/
def rollNumberPattern (s : String) : Bool :=
  s ≠ "" && s.data.all (fun c => c.isAlpha || c.isDigit || c = '-')

/-- Pattern from the username validator and the User schema: one or more of
letters, digits or underscore. -/
def usernamePattern (s : String) : Bool :=
  s ≠ "" && s.data.all (fun c => c.isAlpha || c.isDigit || c = '_')

/-- Split a character list at every occurrence of a separator. -/
def splitCharAux (sep : Char) : List Char → List Char → List (List Char)
  | [], acc => [acc.reverse]
  | c :: rest, acc =>
    if c = sep then acc.reverse :: splitCharAux sep rest []
    else splitCharAux sep rest (c :: acc)

/-- Split a character list on a separator character. -/
def splitChar (sep : Char) (cs : List Char) : List (List Char) :=
  splitCharAux sep cs []

/-- Simplified model of validator.js isEmail (and of the schema email
regexes): a nonempty local part without spaces, an at-sign, and a domain of
at least two nonempty dot-separated labels without spaces. -/
def isEmailModel (s : String) : Bool :=
  match splitChar '@' s.data with
  | [localPart, domain] =>
    let labels := splitChar '.' domain
    !localPart.isEmpty && !(localPart.contains ' ') && !(domain.contains ' ') &&
      decide (2 ≤ labels.length) && labels.all (fun p => !p.isEmpty)
  | _ => false

/-- JS truthiness of an optional string field: present and nonempty. -/
def strTruthy : Option String → Bool
  | none => false
  | some s => s ≠ ""

/-- sanitizeString from studentRoutes.js (on the string fields it is applied
to): trim. -/
def sanitizeString (s : String) : String := jsTrim s

/-- The gpa validator: body gpa isFloat with min 0 and max 4.  A missing
field reaches express-validator as the empty string, which fails isFloat. -/
def gpaFieldValid (gpa : String) : Bool :=
  match isFloatStr gpa with
  | some q => decide (0 ≤ q) && decide (q ≤ 4)
  | none => false

/-- The Student schema constraints on gpa: required, min 0, max 4
(both bounds inclusive). -/
def schemaGpaValid (q : ℚ) : Bool :=
  decide (0 ≤ q) && decide (q ≤ 4)

/-- validateDepartment from studentRoutes.js.  value is the department field
after the chain's trim sanitizer; customDepartment is the raw companion
field (it has no validator chain of its own).  The first guard is the JS
falsiness test together with the emptiness test on the trimmed value. -/
def validateDepartment (value : String) (customDepartment : Option String) :
    Except String Unit :=
  if value = "custom" then
    match customDepartment with
    | none => .error "Custom department name is required when selecting Custom Department"
    | some cd =>
      if cd = "" ∨ jsTrim cd = "" then
        .error "Custom department name is required when selecting Custom Department"
      else if (jsTrim cd).length < 2 then
        .error "Custom department name must be at least 2 characters long"
      else if (jsTrim cd).length > 100 then
        .error "Custom department name must be at most 100 characters long"
      else .ok ()
  else .ok ()

/-- A student create or update request body as it arrives from the form.
customDepartment is optional; gpa arrives as a raw string. -/
structure StudentBody where
  name : String
  rollNumber : String
  email : String
  department : String
  customDepartment : Option String
  gpa : String
  deriving DecidableEq, Repr

/-- Running the studentValidators chains (express-validator semantics): the
sanitizers trim and normalizeEmail write their result back into the request
body, each failing validator appends its message, and all validators run
even after earlier failures.  Returns the error list together with the
mutated body. -/
def runStudentValidators (b : StudentBody) : List String × StudentBody :=
  let name := jsTrim b.name
  let nameErrs :=
    (if name = "" then ["Name is required"] else []) ++
      (if name.length < 2 || 100 < name.length then ["Invalid value"] else [])
  let roll := jsTrim b.rollNumber
  let rollErrs :=
    (if roll = "" then ["Roll number is required"] else []) ++
      (if !(rollNumberPattern roll) then ["Roll number must be alphanumeric"] else [])
  let email := jsTrim b.email
  let emailErrs := if !(isEmailModel email) then ["Valid email is required"] else []
  let dept := jsTrim b.department
  let deptErrs :=
    (if dept = "" then ["Department is required"] else []) ++
      (match validateDepartment dept b.customDepartment with
       | .ok _ => []
       | .error m => [m])
  let gpaErrs := if !(gpaFieldValid b.gpa) then ["GPA must be between 0.0 and 4.0"] else []
  (nameErrs ++ rollErrs ++ emailErrs ++ deptErrs ++ gpaErrs,
   { b with
      name := name
      rollNumber := roll
      email := normalizeEmailModel email
      department := dept })

/-- The document handed to the store by the create and update handlers.  gpa
is the result of Number() so may in principle be NaN (none). -/
structure StudentRecord where
  name : String
  rollNumber : String
  email : String
  department : String
  gpa : Option ℚ
  deriving DecidableEq, Repr

/-- An HTTP response as the handlers produce it: either a rendered view with
a status code, error messages and the values echoed to the form, or a
redirect. -/
inductive HttpResponse (V : Type) where
  | render (status : Nat) (view : String) (errors : List String) (values : V)
  | redirect (path : String)
  deriving DecidableEq, Repr

/-- The custom-department resolution shared by the create and update
handlers: start from the sanitized department; when it is the sentinel and
customDepartment is truthy, use the sanitized customDepartment instead. -/
def resolveDepartment (department : String) (customDepartment : Option String) : String :=
  let d := sanitizeString department
  if d = "custom" && strTruthy customDepartment then
    sanitizeString (customDepartment.getD "")
  else d

/-- POST /students: run the validators; on failure render addStudent with
status 422, the error list and the (mutated) body; on success resolve the
custom department and save the assembled document, then redirect.  The
duplicate-key path is not modelled (the store here always accepts). -/
def createStudent (b : StudentBody) : HttpResponse StudentBody × Option StudentRecord :=
  let v := runStudentValidators b
  if v.1 ≠ [] then
    (.render 422 "addStudent" v.1 v.2, none)
  else
    (.redirect "/students?msg=created",
     some
       { name := sanitizeString v.2.name
         rollNumber := sanitizeString v.2.rollNumber
         email := sanitizeString v.2.email
         department := resolveDepartment v.2.department v.2.customDepartment
         gpa := jsNumber v.2.gpa })

/-- PUT /students/:id: same validation and department resolution as create;
on failure render editStudent with 422 and the body (plus the id); on
success the update document is written through findByIdAndUpdate. -/
def updateStudent (id : Nat) (b : StudentBody) :
    HttpResponse (StudentBody × Nat) × Option StudentRecord :=
  let v := runStudentValidators b
  if v.1 ≠ [] then
    (.render 422 "editStudent" v.1 (v.2, id), none)
  else
    (.redirect ("/students/" ++ toString id ++ "?msg=updated"),
     some
       { name := sanitizeString v.2.name
         rollNumber := sanitizeString v.2.rollNumber
         email := sanitizeString v.2.email
         department := resolveDepartment v.2.department v.2.customDepartment
         gpa := jsNumber v.2.gpa })

/-- The sortBy allow-list from buildSort in studentRoutes.js. -/
def allowedSortKeys : List String :=
  ["name", "rollNumber", "email", "department", "gpa", "createdAt"]

/-- buildSort from studentRoutes.js: the key is the requested one when
allow-listed, otherwise createdAt (also when sortBy is absent); the
direction is 1 (ascending) exactly for order asc, otherwise -1. -/
def buildSort (sortBy order : Option String) : String × Int :=
  let key :=
    match sortBy with
    | some s => if allowedSortKeys.contains s then s else "createdAt"
    | none => "createdAt"
  let dir : Int := if order = some "asc" then 1 else -1
  (key, dir)

/-- A stored student document (as the list route sees it). -/
structure StoredStudent where
  sid : Nat
  name : String
  rollNumber : String
  email : String
  department : String
  gpa : ℚ
  deriving DecidableEq, Repr

/-- page after the toInt sanitizer (an integer, or none for NaN or an absent
parameter) as the handler computes it: default 1, floored at 1. -/
def pageOf (pageQ : Option Int) : Int :=
  max 1 (pageQ.getD 1)

/-- limit as the handler computes it: default 10, clamped to 1..100. -/
def limitOf (limitQ : Option Int) : Int :=
  min 100 (max 1 (limitQ.getD 10))

/-- What the list handler passes to the students view. -/
structure ListPage where
  students : List StoredStudent
  total : Nat
  totalPages : Nat
  page : Int
  limit : Int
  deriving DecidableEq, Repr

/-- The pagination part of GET /students, applied to the sorted list of
documents matching the filter: countDocuments gives total before
pagination, find skips (page-1)*limit documents and takes limit, and
totalPages is max(1, ceil(total/limit)) (written with the equivalent
integer formula). -/
def listStudents (pageQ limitQ : Option Int) (matching : List StoredStudent) : ListPage :=
  let page := pageOf pageQ
  let limit := limitOf limitQ
  let skip := (page - 1) * limit
  let total := matching.length
  let students := (matching.drop skip.toNat).take limit.toNat
  let totalPages := max 1 ((total + limit.toNat - 1) / limit.toNat)
  { students := students, total := total, totalPages := totalPages,
    page := page, limit := limit }

/-- The gpa part of the Mongo filter: optional inclusive bounds. -/
structure GpaRange where
  gte : Option ℚ
  lte : Option ℚ
  deriving DecidableEq, Repr

/-- A minGpa or maxGpa query parameter as the handler sees it: the query
sanitizer trims it; an absent or empty value stays undefined, anything else
goes through parseFloat. -/
def gpaParam (raw : Option String) : Option JSNum :=
  match raw with
  | none => none
  | some s =>
    let t := jsTrim s
    if t = "" then none else some (parseFloatJS t)

/-- The finite value of an optional parse result, none otherwise; mirrors
the hasMin/hasMax Number.isFinite guards. -/
def finiteVal : Option JSNum → Option ℚ
  | some (.finite q) => some q
  | _ => none

/-- filter.gpa construction: present exactly when at least one bound is a
finite number, each finite bound contributing its inclusive comparison. -/
def buildGpaFilter (minRaw maxRaw : Option String) : Option GpaRange :=
  let minV := finiteVal (gpaParam minRaw)
  let maxV := finiteVal (gpaParam maxRaw)
  match minV, maxV with
  | none, none => none
  | _, _ => some { gte := minV, lte := maxV }

/-- Mongo semantics of the gpa range filter: gte and lte are inclusive and
independent; an absent filter matches everything. -/
def matchesGpaFilter (f : Option GpaRange) (g : ℚ) : Bool :=
  match f with
  | none => true
  | some r =>
    (match r.gte with | some m => decide (m ≤ g) | none => true) &&
      (match r.lte with | some m => decide (g ≤ m) | none => true)

/-- findByIdAndDelete: remove the (unique) document with the given id;
removing nothing is not an error. -/
def findByIdAndDelete (db : List StoredStudent) (i : Nat) : List StoredStudent :=
  db.eraseP (fun s => s.sid == i)

/-- DELETE /students/:id: delete by id and redirect to the list with the
deleted indicator, with no existence check. -/
def deleteStudent (db : List StoredStudent) (i : Nat) :
    List StoredStudent × HttpResponse Unit :=
  (findByIdAndDelete db i, .redirect "/students?msg=deleted")

/-- A password slot in the user store: either still plaintext or the result
of a salted bcrypt hash at some cost factor over an earlier value.  bcrypt
output is modelled symbolically, which keeps hashing injective and makes
plaintext syntactically distinguishable from a hash. -/
inductive PwValue where
  | plain (s : String)
  | hashed (cost : Nat) (of : PwValue)
  deriving DecidableEq, Repr

/-- bcrypt.hash with a salt generated at the given cost factor. -/
def bcryptHash (cost : Nat) (v : PwValue) : PwValue :=
  .hashed cost v

/-- bcrypt.compare: a candidate plaintext verifies only against the hash of
that same plaintext. -/
def bcryptCompare (candidate : String) (stored : PwValue) : Bool :=
  match stored with
  | .hashed _ (.plain p) => candidate == p
  | _ => false

/-- A user document from the User schema. -/
structure User where
  username : String
  email : String
  password : PwValue
  role : String
  isActive : Bool
  deriving DecidableEq, Repr

/-- The pre-save hook of the User schema: when the password path is modified
in this save, replace it by its bcrypt hash at cost factor 12; otherwise do
nothing. -/
def preSaveHook (u : User) (passwordModified : Bool) : User :=
  if passwordModified then { u with password := bcryptHash 12 u.password } else u

/-- A save through Mongoose: the hook asks isModified for the password path
among the paths modified in this save. -/
def saveUser (u : User) (modifiedPaths : List String) : User :=
  preSaveHook u (modifiedPaths.contains "password")

/-- A JSON-ish field value for the serialized user document. -/
inductive JsonValue where
  | str (s : String)
  | bool (b : Bool)
  | pw (v : PwValue)
  deriving DecidableEq, Repr

/-- this.toObject(): the raw document as key-value pairs, password
included. -/
def toObject (u : User) : List (String × JsonValue) :=
  [("username", .str u.username), ("email", .str u.email),
   ("password", .pw u.password), ("role", .str u.role),
   ("isActive", .bool u.isActive)]

/-- The toJSON method of the User schema: the raw document with the password
key deleted. -/
def toJSON (u : User) : List (String × JsonValue) :=
  (toObject u).filter (fun kv => kv.1 ≠ "password")

/-- The user document built and saved by the signup handler: defaults for
role and isActive, plaintext password handed to save, where the pre-save
hook hashes it (on a new document every path counts as modified). -/
def signupCreate (username email password : String) : User :=
  preSaveHook
    { username := username, email := email, password := .plain password,
      role := "user", isActive := true } true

/-- The user documents that can ever sit in the store: created at signup,
then re-saved with either the password path modified (set to a new
plaintext before the hook runs) or only other paths modified.  The
repository itself only ever creates users, but the hook is written for all
of these. -/
inductive PersistedUser : User → Prop where
  | created (un em pw : String) : PersistedUser (signupCreate un em pw)
  | savedPassword (u : User) (pw : String) :
      PersistedUser u → PersistedUser (saveUser { u with password := .plain pw } ["password"])
  | savedOther (u : User) (role : String) (active : Bool) :
      PersistedUser u →
        PersistedUser (saveUser { u with role := role, isActive := active } ["role", "isActive"])

/-- A login request body. -/
structure LoginBody where
  email : String
  password : String
  deriving DecidableEq, Repr

/-- The loginValidators chains: email is trimmed, must look like an email,
then is normalized in place; password must be nonempty. -/
def runLoginValidators (b : LoginBody) : List String × LoginBody :=
  let email := jsTrim b.email
  let emailErrs := if !(isEmailModel email) then ["Please enter a valid email address"] else []
  let pwErrs := if b.password = "" then ["Password is required"] else []
  (emailErrs ++ pwErrs, { b with email := normalizeEmailModel email })

/-- User.findOne on the email key. -/
def findByEmail (db : List User) (email : String) : Option User :=
  db.find? (fun u => u.email == email)

/-- POST /login: validation failure renders 422; an unknown email and a
wrong password both render 401 with the same generic message; an inactive
account renders 401 with its own message; success redirects (the session
write is outside this model). -/
def login (db : List User) (b : LoginBody) : HttpResponse LoginBody :=
  let v := runLoginValidators b
  if v.1 ≠ [] then .render 422 "login" v.1 v.2
  else
    match findByEmail db v.2.email with
    | none => .render 401 "login" ["Invalid email or password"] v.2
    | some user =>
      if !user.isActive then
        .render 401 "login" ["Account is deactivated. Please contact administrator."] v.2
      else if !(bcryptCompare v.2.password user.password) then
        .render 401 "login" ["Invalid email or password"] v.2
      else .redirect "/?msg=login_success"

/-- A signup request body. -/
structure SignupBody where
  username : String
  email : String
  password : String
  confirmPassword : String
  deriving DecidableEq, Repr

/-- The signupValidators chains: username trimmed, length 3..30, pattern;
email trimmed, checked, normalized in place; password at least 6 chars;
confirmPassword must equal the (unsanitized) password field. -/
def runSignupValidators (b : SignupBody) : List String × SignupBody :=
  let username := jsTrim b.username
  let userErrs :=
    (if username.length < 3 || 30 < username.length then
      ["Username must be between 3 and 30 characters"] else []) ++
      (if !(usernamePattern username) then
        ["Username can only contain letters, numbers, and underscores"] else [])
  let email := jsTrim b.email
  let emailErrs :=
    if !(isEmailModel email) then ["Please enter a valid email address"] else []
  let pwErrs :=
    if b.password.length < 6 then ["Password must be at least 6 characters long"] else []
  let confErrs :=
    if b.confirmPassword ≠ b.password then
      ["Password confirmation does not match password"] else []
  (userErrs ++ emailErrs ++ pwErrs ++ confErrs,
   { b with username := username, email := normalizeEmailModel email })

/-- The combined uniqueness lookup of the signup handler. -/
def findUserByEmailOrUsername (db : List User) (email username : String) : Option User :=
  db.find? (fun u => u.email == email || u.username == username)

/-- POST /signup: validation failure renders 422 with the mutated body; a
conflict on either unique field renders 409 with a field-specific message;
otherwise the new user is saved (hashing the password) and the handler
redirects to login. -/
def signup (db : List User) (b : SignupBody) : HttpResponse SignupBody × Option User :=
  let v := runSignupValidators b
  if v.1 ≠ [] then (.render 422 "signup" v.1 v.2, none)
  else
    match findUserByEmailOrUsername db v.2.email v.2.username with
    | some existing =>
      if existing.email = v.2.email then
        (.render 409 "signup" ["Email already registered"] v.2, none)
      else
        (.render 409 "signup" ["Username already taken"] v.2, none)
    | none =>
      (.redirect "/login?msg=signup_success",
       some (signupCreate v.2.username v.2.email v.2.password))

set_option maxRecDepth 100000

lemma natCeilDiv_eq_ceil_ratCast (t l : ℕ) (hl : 0 < l) :
    ⌈(t : ℚ) / (l : ℚ)⌉₊ = (t + l - 1) / l := by
  apply eq_of_forall_ge_iff
  intro c
  rw [Nat.ceil_le, div_le_iff₀ (by exact_mod_cast hl), ← Nat.ceilDiv_eq_add_pred_div,
    ceilDiv_le_iff_le_mul hl, mul_comm l c]
  exact_mod_cast Iff.rfl

lemma eraseP_sid_idem (i : Nat) :
    ∀ db : List StoredStudent, (db.map StoredStudent.sid).Nodup →
      (db.eraseP (fun s => s.sid == i)).eraseP (fun s => s.sid == i) =
        db.eraseP (fun s => s.sid == i) := by
  intro db
  induction db with
  | nil => simp
  | cons a t ih =>
    intro h
    rw [List.map_cons, List.nodup_cons] at h
    by_cases ha : a.sid = i
    · rw [List.eraseP_cons_of_pos (by simp [ha])]
      apply List.eraseP_of_forall_not
      intro b hb
      simp only [beq_iff_eq]
      intro hbi
      have hmem : b.sid ∈ t.map StoredStudent.sid := List.mem_map_of_mem _ hb
      rw [hbi, ← ha] at hmem
      exact h.1 hmem
    · rw [List.eraseP_cons_of_neg (by simp [ha]), List.eraseP_cons_of_neg (by simp [ha]),
        ih h.2]

/-- C5: gpa passes the request validator exactly when it parses as a float
with 0 <= gpa <= 4, and the schema bound is the same closed interval; the
boundary values 0 and 4 are accepted and values outside are rejected, at
both layers. -/
theorem gpaBoundaryValidation :
    (∀ s : String, gpaFieldValid s = true ↔ ∃ q, isFloatStr s = some q ∧ 0 ≤ q ∧ q ≤ 4) ∧
    (∀ q : ℚ, schemaGpaValid q = true ↔ (0 ≤ q ∧ q ≤ 4)) ∧
    gpaFieldValid "0" = true ∧ gpaFieldValid "4" = true ∧
    gpaFieldValid "0.0" = true ∧ gpaFieldValid "4.0" = true ∧
    gpaFieldValid "4.01" = false ∧ gpaFieldValid "-0.01" = false ∧
    gpaFieldValid "5" = false ∧ gpaFieldValid "x" = false ∧
    schemaGpaValid 0 = true ∧ schemaGpaValid 4 = true ∧
    (∀ q : ℚ, q < 0 → schemaGpaValid q = false) ∧
    (∀ q : ℚ, 4 < q → schemaGpaValid q = false) := by
  refine ⟨?_, ?_, by decide, by decide, by decide, by decide, by decide, by decide,
    by decide, by decide, by decide, by decide, ?_, ?_⟩
  · intro s
    unfold gpaFieldValid
    cases h : isFloatStr s <;> simp [h]
  · intro q
    simp [schemaGpaValid]
  · intro q h
    have h0 : decide ((0:ℚ) ≤ q) = false := decide_eq_false (not_le.mpr h)
    simp [schemaGpaValid, h0]
  · intro q h
    have h4 : decide (q ≤ (4:ℚ)) = false := decide_eq_false (not_le.mpr h)
    simp [schemaGpaValid, h4]

/-- Witness for C5 at the concrete input 3.5 at both layers. -/
theorem gpaBoundaryValidation_witness :
    gpaFieldValid "3.5" = true ∧ schemaGpaValid (mkRat 7 2) = true :=
  ⟨(gpaBoundaryValidation.1 "3.5").mpr ⟨mkRat 7 2, by decide, by decide, by decide⟩,
   (gpaBoundaryValidation.2.1 (mkRat 7 2)).mpr ⟨by decide, by decide⟩⟩

/-- C6: any sortBy outside the allow-list falls back to the createdAt key
without error, and the direction is ascending (1) exactly when order is
asc, descending (-1) for every other order including an absent one. -/
theorem sortFallbackAndDirection :
    ∀ sortBy order : Option String,
      ((∀ s, sortBy = some s → s ∉ allowedSortKeys) →
        (buildSort sortBy order).1 = "createdAt") ∧
      ((buildSort sortBy order).2 = 1 ↔ order = some "asc") ∧
      ((buildSort sortBy order).2 = -1 ↔ order ≠ some "asc") := by
  intro sortBy order
  refine ⟨?_, ?_, ?_⟩
  · intro h
    cases sortBy with
    | none => rfl
    | some s =>
      have hs : s ∉ allowedSortKeys := h s rfl
      simp [buildSort, hs]
  · unfold buildSort
    by_cases h : order = some "asc" <;> simp [h]
  · unfold buildSort
    by_cases h : order = some "asc" <;> simp [h]

/-- Witness for C6 at a sortBy outside the allow-list and a non-asc order. -/
theorem sortFallbackAndDirection_witness :
    (buildSort (some "bogus") (some "desc")).1 = "createdAt" ∧
      (buildSort (some "bogus") (some "desc")).2 = -1 :=
  ⟨(sortFallbackAndDirection (some "bogus") (some "desc")).1
      (by intro s hs; cases hs; decide),
   (sortFallbackAndDirection (some "bogus") (some "desc")).2.2.mpr (by decide)⟩

/-- C8: a save hashes the password with the cost-12 salted hash exactly when
the password path is among the modified paths; saves touching only other
paths leave the whole document, in particular the stored hash, unchanged. -/
theorem hashOnlyOnPasswordChange :
    ∀ (u : User) (paths : List String),
      (paths.contains "password" = true →
        saveUser u paths = { u with password := PwValue.hashed 12 u.password }) ∧
      (paths.contains "password" = false → saveUser u paths = u) := by
  intro u paths
  constructor <;> intro h <;> unfold saveUser preSaveHook bcryptHash <;> rw [h] <;> simp

/-- Witness for C8: a password-modifying save hashes at cost 12, a
role-only save is the identity. -/
theorem hashOnlyOnPasswordChange_witness :
    saveUser
        { username := "bob", email := "b@c.de", password := PwValue.plain "secret1",
          role := "user", isActive := true } ["password"] =
      { username := "bob", email := "b@c.de",
        password := PwValue.hashed 12 (PwValue.plain "secret1"),
        role := "user", isActive := true } ∧
    saveUser
        { username := "bob", email := "b@c.de",
          password := PwValue.hashed 12 (PwValue.plain "secret1"),
          role := "admin", isActive := true } ["role"] =
      { username := "bob", email := "b@c.de",
        password := PwValue.hashed 12 (PwValue.plain "secret1"),
        role := "admin", isActive := true } :=
  ⟨(hashOnlyOnPasswordChange _ ["password"]).1 (by decide),
   (hashOnlyOnPasswordChange _ ["role"]).2 (by decide)⟩

/-- C9: the delete handler answers with the same deleted-redirect whether or
not a document with the id exists, and (with the store's unique ids)
deleting twice has exactly the outcome of deleting once. -/
theorem deleteIdempotentNoError :
    ∀ (db : List StoredStudent) (i : Nat),
      (deleteStudent db i).2 = HttpResponse.redirect "/students?msg=deleted" ∧
      ((db.map StoredStudent.sid).Nodup →
        deleteStudent (deleteStudent db i).1 i = deleteStudent db i) := by
  intro db i
  refine ⟨rfl, fun h => ?_⟩
  exact Prod.ext (eraseP_sid_idem i db h) rfl

/-- Witness for C9 on a concrete two-student store: deleting id 1 twice
equals deleting it once, and deleting the absent id 9 still redirects. -/
theorem deleteIdempotentNoError_witness :
    deleteStudent
        (deleteStudent
          [{ sid := 1, name := "a", rollNumber := "r1", email := "e1",
             department := "d", gpa := 3 },
           { sid := 2, name := "b", rollNumber := "r2", email := "e2",
             department := "d", gpa := 3 }] 1).1 1 =
      deleteStudent
        [{ sid := 1, name := "a", rollNumber := "r1", email := "e1",
           department := "d", gpa := 3 },
         { sid := 2, name := "b", rollNumber := "r2", email := "e2",
           department := "d", gpa := 3 }] 1 ∧
    (deleteStudent ([] : List StoredStudent) 9).2 =
      HttpResponse.redirect "/students?msg=deleted" :=
  ⟨(deleteIdempotentNoError _ 1).2 (by decide), (deleteIdempotentNoError [] 9).1⟩

lemma toNat_mul_of_nonneg (x y : Int) (hx : 0 ≤ x) (hy : 0 ≤ y) :
    (x * y).toNat = x.toNat * y.toNat := by
  lift x to ℕ using hx
  lift y to ℕ using hy
  rw [← Int.natCast_mul, Int.toNat_natCast, Int.toNat_natCast, Int.toNat_natCast]

/-- C2: the list query's total counts all matching records before
pagination, the returned page is exactly the window of limit records after
skipping (page-1)*limit, and totalPages is max(1, ceil(total/limit)), with
page defaulting to 1 and floored at 1 and limit defaulting to 10 and
clamped to 1..100; in the 25-record scenario with limit 10, page 1 holds 10
records with totalPages 3 and page 4 is empty without error. -/
theorem paginationContract :
    (∀ (pageQ limitQ : Option Int) (matching : List StoredStudent),
      (listStudents pageQ limitQ matching).total = matching.length ∧
      (listStudents pageQ limitQ matching).students =
        (matching.drop (((pageOf pageQ).toNat - 1) * (limitOf limitQ).toNat)).take
          (limitOf limitQ).toNat ∧
      (listStudents pageQ limitQ matching).totalPages =
        max 1 ⌈(matching.length : ℚ) / (((limitOf limitQ).toNat : ℕ) : ℚ)⌉₊) ∧
    (∀ pageQ : Option Int, pageOf pageQ = max 1 (pageQ.getD 1)) ∧
    pageOf none = 1 ∧
    (∀ pageQ : Option Int, 1 ≤ pageOf pageQ) ∧
    (∀ limitQ : Option Int, limitOf limitQ = min 100 (max 1 (limitQ.getD 10))) ∧
    limitOf none = 10 ∧
    (∀ limitQ : Option Int, 1 ≤ limitOf limitQ ∧ limitOf limitQ ≤ 100) ∧
    (listStudents (some 1) (some 10) ((List.range 25).map (fun i =>
      { sid := i, name := "s", rollNumber := "r", email := "e", department := "d",
        gpa := 3 : StoredStudent }))).students.length = 10 ∧
    (listStudents (some 1) (some 10) ((List.range 25).map (fun i =>
      { sid := i, name := "s", rollNumber := "r", email := "e", department := "d",
        gpa := 3 : StoredStudent }))).totalPages = 3 ∧
    (listStudents (some 4) (some 10) ((List.range 25).map (fun i =>
      { sid := i, name := "s", rollNumber := "r", email := "e", department := "d",
        gpa := 3 : StoredStudent }))).students.length = 0 := by
  have hlim : ∀ limitQ : Option Int, 1 ≤ limitOf limitQ ∧ limitOf limitQ ≤ 100 := by
    intro limitQ
    exact ⟨le_min (by norm_num) (le_max_left 1 _), min_le_left _ _⟩
  refine ⟨?_, fun pageQ => rfl, by decide, fun pageQ => le_max_left 1 _,
    fun limitQ => rfl, by decide, hlim, by decide, by decide, by decide⟩
  intro pageQ limitQ matching
  have hp : 1 ≤ pageOf pageQ := le_max_left 1 _
  have hl : 1 ≤ limitOf limitQ := (hlim limitQ).1
  refine ⟨rfl, ?_, ?_⟩
  · have h1 : ((pageOf pageQ - 1) * limitOf limitQ).toNat =
        ((pageOf pageQ).toNat - 1) * (limitOf limitQ).toNat := by
      rw [toNat_mul_of_nonneg _ _ (by omega) (by omega)]
      congr 1
      omega
    simp only [listStudents]
    rw [h1]
  · have hl0 : 0 < (limitOf limitQ).toNat := by omega
    rw [natCeilDiv_eq_ceil_ratCast _ _ hl0]
    simp only [listStudents]

lemma finiteVal_eq_some_iff (o : Option JSNum) (q : ℚ) :
    finiteVal o = some q ↔ o = some (JSNum.finite q) := by
  cases o with
  | none => simp [finiteVal]
  | some j => cases j <;> simp [finiteVal]

/-- C10: an absent, empty or non-finite-parsing minGpa or maxGpa
contributes no gpa bound and raises no error; the gpa filter is present
exactly when at least one bound parses to a finite number; each present
bound is the finite parse of its parameter (so NaN never reaches the
filter) and is applied independently as an inclusive bound. -/
theorem gpaFilterSafety :
    ∀ minRaw maxRaw : Option String,
      ((minRaw = none ∨ ∃ s, minRaw = some s ∧ jsTrim s = "") →
        finiteVal (gpaParam minRaw) = none) ∧
      (∀ s, minRaw = some s → (parseFloatJS (jsTrim s)).isFinite = false →
        finiteVal (gpaParam minRaw) = none) ∧
      (buildGpaFilter minRaw maxRaw = none ↔
        (finiteVal (gpaParam minRaw) = none ∧ finiteVal (gpaParam maxRaw) = none)) ∧
      (∀ r, buildGpaFilter minRaw maxRaw = some r →
        r.gte = finiteVal (gpaParam minRaw) ∧ r.lte = finiteVal (gpaParam maxRaw) ∧
        (∀ m, r.gte = some m → gpaParam minRaw = some (JSNum.finite m)) ∧
        (∀ m, r.lte = some m → gpaParam maxRaw = some (JSNum.finite m))) ∧
      (∀ g : ℚ, matchesGpaFilter (buildGpaFilter minRaw maxRaw) g = true ↔
        ((∀ m, finiteVal (gpaParam minRaw) = some m → m ≤ g) ∧
         (∀ m, finiteVal (gpaParam maxRaw) = some m → g ≤ m))) := by
  intro minRaw maxRaw
  refine ⟨?_, ?_, ?_, ?_, ?_⟩
  · rintro (h | ⟨s, hmin, hs⟩)
    · rw [h]; rfl
    · rw [hmin]; simp [gpaParam, hs, finiteVal]
  · intro s hmin hnf
    rw [hmin]
    simp only [gpaParam]
    by_cases ht : jsTrim s = ""
    · simp [ht, finiteVal]
    · rw [if_neg ht]
      cases hj : parseFloatJS (jsTrim s) with
      | finite q => rw [hj] at hnf; simp [JSNum.isFinite] at hnf
      | nan => simp [finiteVal]
      | inf => simp [finiteVal]
      | ninf => simp [finiteVal]
  · cases hmin : finiteVal (gpaParam minRaw) <;>
      cases hmax : finiteVal (gpaParam maxRaw) <;>
        simp [buildGpaFilter, hmin, hmax]
  · intro r hr
    cases hmin : finiteVal (gpaParam minRaw) <;>
      cases hmax : finiteVal (gpaParam maxRaw) <;>
        rw [buildGpaFilter, hmin, hmax] at hr <;>
          [skip; injection hr with hr; injection hr with hr; injection hr with hr]
    · exact absurd hr (by simp)
    all_goals subst hr
    all_goals refine ⟨by simp [hmin], by simp [hmax], ?_, ?_⟩ <;> intro m hm
    · exact absurd hm (by simp)
    · rw [← finiteVal_eq_some_iff, hmax]; exact hm
    · rw [← finiteVal_eq_some_iff, hmin]; exact hm
    · exact absurd hm (by simp)
    · rw [← finiteVal_eq_some_iff, hmin]; exact hm
    · rw [← finiteVal_eq_some_iff, hmax]; exact hm
  · intro g
    cases hmin : finiteVal (gpaParam minRaw) <;>
      cases hmax : finiteVal (gpaParam maxRaw) <;>
        simp [buildGpaFilter, matchesGpaFilter, hmin, hmax]

/-- Witness for C10: minGpa abc parses to NaN and is ignored, while maxGpa
2 gives an inclusive upper bound that the boundary value 2 satisfies. -/
theorem gpaFilterSafety_witness :
    finiteVal (gpaParam (some "abc")) = none ∧
    matchesGpaFilter (buildGpaFilter (some "abc") (some "2")) 2 = true :=
  ⟨(gpaFilterSafety (some "abc") (some "2")).2.1 "abc" rfl (by decide),
   ((gpaFilterSafety (some "abc") (some "2")).2.2.2.2 2).mpr
     ⟨(by
        intro m hm
        rw [show finiteVal (gpaParam (some "abc")) = none from by decide] at hm
        cases hm),
      (by
        intro m hm
        rw [show finiteVal (gpaParam (some "2")) = some (2:ℚ) from by decide] at hm
        injection hm with hm
        rw [← hm])⟩⟩

/-- C7: every persisted user state carries a cost-12 hash, never a
plaintext, in its password slot, and the serialized-for-output form omits
the password key unconditionally (its key list is exactly the other four
fields), at every point after creation including immediately after. -/
theorem passwordNeverSerialized :
    ∀ u : User, PersistedUser u →
      (∃ v, u.password = PwValue.hashed 12 v) ∧
      (∀ s, u.password ≠ PwValue.plain s) ∧
      (toJSON u).map Prod.fst = ["username", "email", "role", "isActive"] ∧
      "password" ∉ (toJSON u).map Prod.fst := by
  intro u hu
  have hpw : ∃ v, u.password = PwValue.hashed 12 v := by
    induction hu with
    | created un em pw => exact ⟨.plain pw, rfl⟩
    | savedPassword v pw hv ih => exact ⟨.plain pw, rfl⟩
    | savedOther v role active hv ih =>
      obtain ⟨w, hw⟩ := ih
      exact ⟨w, hw⟩
  have hk : (toJSON u).map Prod.fst = ["username", "email", "role", "isActive"] := rfl
  refine ⟨hpw, ?_, hk, ?_⟩
  · intro s hs
    obtain ⟨v, hv⟩ := hpw
    rw [hs] at hv
    cases hv
  · rw [hk]
    decide

/-- Witness for C7 on a freshly created user. -/
theorem passwordNeverSerialized_witness :
    (∃ v, (signupCreate "alice" "a@b.co" "secret1").password = PwValue.hashed 12 v) ∧
    "password" ∉ (toJSON (signupCreate "alice" "a@b.co" "secret1")).map Prod.fst :=
  ⟨(passwordNeverSerialized _ (.created "alice" "a@b.co" "secret1")).1,
   (passwordNeverSerialized _ (.created "alice" "a@b.co" "secret1")).2.2.2⟩

/-- C3: for a login request passing validation, an unknown email and a
wrong password on an active account both produce status 401 with the
identical generic message, while an existing inactive account produces 401
with a distinct deactivated message. -/
theorem loginGenericError :
    ∀ (db : List User) (b : LoginBody),
      (runLoginValidators b).1 = [] →
      (findByEmail db (runLoginValidators b).2.email = none →
        login db b = .render 401 "login" ["Invalid email or password"]
          (runLoginValidators b).2) ∧
      (∀ u, findByEmail db (runLoginValidators b).2.email = some u →
        u.isActive = true →
        bcryptCompare (runLoginValidators b).2.password u.password = false →
        login db b = .render 401 "login" ["Invalid email or password"]
          (runLoginValidators b).2) ∧
      (∀ u, findByEmail db (runLoginValidators b).2.email = some u →
        u.isActive = false →
        login db b = .render 401 "login"
          ["Account is deactivated. Please contact administrator."]
          (runLoginValidators b).2) ∧
      ("Invalid email or password" ≠
        "Account is deactivated. Please contact administrator.") := by
  intro db b hv
  refine ⟨?_, ?_, ?_, by decide⟩
  · intro hfind
    simp [login, hv, hfind]
  · intro u hfind hact hcmp
    simp [login, hv, hfind, hact, hcmp]
  · intro u hfind hact
    simp [login, hv, hfind, hact]

/-- Witness for C3: concrete store with one active and one inactive user;
wrong password, unknown email, and inactive account each behave as
stated. -/
theorem loginGenericError_witness :
    login
        [{ username := "alice", email := "a@b.co",
           password := PwValue.hashed 12 (PwValue.plain "right1"),
           role := "user", isActive := true }]
        { email := "a@b.co", password := "wrong1" } =
      .render 401 "login" ["Invalid email or password"]
        { email := "a@b.co", password := "wrong1" } ∧
    login
        [{ username := "alice", email := "a@b.co",
           password := PwValue.hashed 12 (PwValue.plain "right1"),
           role := "user", isActive := true }]
        { email := "x@y.zz", password := "wrong1" } =
      .render 401 "login" ["Invalid email or password"]
        { email := "x@y.zz", password := "wrong1" } ∧
    login
        [{ username := "carol", email := "c@d.ee",
           password := PwValue.hashed 12 (PwValue.plain "right1"),
           role := "user", isActive := false }]
        { email := "c@d.ee", password := "right1" } =
      .render 401 "login" ["Account is deactivated. Please contact administrator."]
        { email := "c@d.ee", password := "right1" } :=
  ⟨(loginGenericError _ _ (by decide)).2.1
      { username := "alice", email := "a@b.co",
        password := PwValue.hashed 12 (PwValue.plain "right1"),
        role := "user", isActive := true } (by decide) (by decide) (by decide),
   (loginGenericError _ _ (by decide)).1 (by decide),
   (loginGenericError _ _ (by decide)).2.2.1
      { username := "carol", email := "c@d.ee",
        password := PwValue.hashed 12 (PwValue.plain "right1"),
        role := "user", isActive := false } (by decide) (by decide)⟩

lemma validateDepartment_custom_iff (cd : Option String) :
    validateDepartment "custom" cd = .ok () ↔
      ∃ s, cd = some s ∧ 2 ≤ (jsTrim s).length ∧ (jsTrim s).length ≤ 100 := by
  cases cd with
  | none => simp [validateDepartment]
  | some s =>
    unfold validateDepartment
    rw [if_pos rfl]
    dsimp only
    constructor
    · intro h
      by_cases h1 : s = "" ∨ jsTrim s = ""
      · rw [if_pos h1] at h; cases h
      · rw [if_neg h1] at h
        by_cases h2 : (jsTrim s).length < 2
        · rw [if_pos h2] at h; cases h
        · rw [if_neg h2] at h
          by_cases h3 : (jsTrim s).length > 100
          · rw [if_pos h3] at h; cases h
          · exact ⟨s, rfl, by omega, by omega⟩
    · rintro ⟨s', hs', h2, h100⟩
      injection hs' with hs'
      subst hs'
      have htrim : jsTrim s ≠ "" := by
        intro heq
        rw [heq] at h2
        simp at h2
      have hsne : s ≠ "" := by
        intro heq
        subst heq
        exact htrim rfl
      rw [if_neg (by push_neg; exact ⟨hsne, htrim⟩), if_neg (by omega), if_neg (by omega)]

lemma append5_nil {A B C D E : List String} (h : A ++ B ++ C ++ D ++ E = []) :
    D = [] := by
  rcases List.append_eq_nil.mp h with ⟨h1, hE⟩
  rcases List.append_eq_nil.mp h1 with ⟨h2, hD⟩
  exact hD

lemma studentValidators_nil_dept (b : StudentBody)
    (h : (runStudentValidators b).1 = []) :
    validateDepartment (jsTrim b.department) b.customDepartment = .ok () := by
  have hD := append5_nil h
  have hM := (List.append_eq_nil.mp hD).2
  cases hvd : validateDepartment (jsTrim b.department) b.customDepartment with
  | ok u => cases u; rfl
  | error m =>
    exfalso
    rw [hvd] at hM
    exact List.cons_ne_nil _ _ hM

/-- C1 (amended): on a create or update request with department equal to
the sentinel custom, validation succeeds only when customDepartment is
present with trimmed length 2..100, and then the persisted department is
exactly the trimmed customDepartment (which coincides with the string
custom only in the degenerate case where customDepartment itself trims to
custom). -/
theorem customDepartmentResolution :
    (∀ b : StudentBody, b.department = "custom" →
      (runStudentValidators b).1 = [] →
      ∃ s, b.customDepartment = some s ∧ 2 ≤ (jsTrim s).length ∧
        (jsTrim s).length ≤ 100 ∧
        (createStudent b).2.map StudentRecord.department = some (jsTrim s) ∧
        (∀ id : Nat,
          (updateStudent id b).2.map StudentRecord.department = some (jsTrim s))) ∧
    (∀ b : StudentBody, b.department = "custom" → b.customDepartment = none →
      (runStudentValidators b).1 ≠ []) ∧
    (∀ (b : StudentBody) (s : String), b.department = "custom" →
      b.customDepartment = some s →
      ((jsTrim s).length < 2 ∨ 100 < (jsTrim s).length) →
      (runStudentValidators b).1 ≠ []) := by
  have hcustom : jsTrim "custom" = "custom" := rfl
  refine ⟨?_, ?_, ?_⟩
  · intro b hdept hv
    have hvd := studentValidators_nil_dept b hv
    rw [hdept, hcustom] at hvd
    obtain ⟨s, hcd, h2, h100⟩ := (validateDepartment_custom_iff _).mp hvd
    have hbody : (runStudentValidators b).2.department = jsTrim b.department := rfl
    have hbodycd : (runStudentValidators b).2.customDepartment = b.customDepartment := rfl
    have hsne : s ≠ "" := by
      intro heq
      subst heq
      exact absurd h2 (by decide)
    have hres : resolveDepartment (runStudentValidators b).2.department
        (runStudentValidators b).2.customDepartment = jsTrim s := by
      rw [hbody, hbodycd, hdept, hcd]
      simp [resolveDepartment, sanitizeString, hcustom, strTruthy, hsne]
    refine ⟨s, hcd, h2, h100, ?_, ?_⟩
    · simp [createStudent, hv, hres]
    · intro id
      simp [updateStudent, hv, hres]
  · intro b hdept hcd hv
    have hvd := studentValidators_nil_dept b hv
    rw [hdept, hcustom, hcd] at hvd
    simp [validateDepartment] at hvd
  · intro b s hdept hcd hrange hv
    have hvd := studentValidators_nil_dept b hv
    rw [hdept, hcustom, hcd] at hvd
    obtain ⟨s', hs', h2, h100⟩ := (validateDepartment_custom_iff _).mp hvd
    injection hs' with hs'
    subst hs'
    omega

/-- Witness for C1 on a concrete valid request with department custom and
customDepartment Physics. -/
theorem customDepartmentResolution_witness :
    ∃ s, (some "Physics" : Option String) = some s ∧ 2 ≤ (jsTrim s).length ∧
      (jsTrim s).length ≤ 100 ∧
      (createStudent
        { name := "Alice", rollNumber := "r-1", email := "alice@example.com",
          department := "custom", customDepartment := some "Physics",
          gpa := "3.5" }).2.map StudentRecord.department = some (jsTrim s) ∧
      (∀ id : Nat,
        (updateStudent id
          { name := "Alice", rollNumber := "r-1", email := "alice@example.com",
            department := "custom", customDepartment := some "Physics",
            gpa := "3.5" }).2.map StudentRecord.department = some (jsTrim s)) :=
  customDepartmentResolution.1
    { name := "Alice", rollNumber := "r-1", email := "alice@example.com",
      department := "custom", customDepartment := some "Physics", gpa := "3.5" }
    rfl (by decide)

/-- C1 counterexample: with customDepartment itself the string custom (a
legal 6-character name), validation passes and the persisted department is
the string custom, refuting the never-the-string-custom clause as
stated. -/
theorem customDepartmentResolution_cex :
    (runStudentValidators
      { name := "Alice", rollNumber := "r-1", email := "alice@example.com",
        department := "custom", customDepartment := some "custom",
        gpa := "3.5" }).1 = [] ∧
    (createStudent
      { name := "Alice", rollNumber := "r-1", email := "alice@example.com",
        department := "custom", customDepartment := some "custom",
        gpa := "3.5" }).2.map StudentRecord.department = some "custom" :=
  ⟨by decide, by decide⟩

/-- C4 (amended): every create, update, signup or login request that fails
field validation is answered with HTTP 422 re-rendering its form with the
error list and the submitted body as mutated in place by the validation
chain's sanitizers (trimmed and normalized field values; fields without
sanitizers are echoed as typed). -/
theorem validationFailureRerenders :
    (∀ b : StudentBody, (runStudentValidators b).1 ≠ [] →
      (createStudent b).1 =
        .render 422 "addStudent" (runStudentValidators b).1
          (runStudentValidators b).2) ∧
    (∀ (id : Nat) (b : StudentBody), (runStudentValidators b).1 ≠ [] →
      (updateStudent id b).1 =
        .render 422 "editStudent" (runStudentValidators b).1
          ((runStudentValidators b).2, id)) ∧
    (∀ (db : List User) (b : SignupBody), (runSignupValidators b).1 ≠ [] →
      (signup db b).1 =
        .render 422 "signup" (runSignupValidators b).1 (runSignupValidators b).2) ∧
    (∀ (db : List User) (b : LoginBody), (runLoginValidators b).1 ≠ [] →
      login db b =
        .render 422 "login" (runLoginValidators b).1 (runLoginValidators b).2) := by
  refine ⟨?_, ?_, ?_, ?_⟩
  · intro b h
    simp [createStudent, h]
  · intro id b h
    simp [updateStudent, h]
  · intro db b h
    simp [signup, h]
  · intro db b h
    simp [login, h]

/-- Witness for C4 at a concrete invalid login request. -/
theorem validationFailureRerenders_witness :
    login [] { email := " A@B.CO ", password := "" } =
      .render 422 "login"
        (runLoginValidators { email := " A@B.CO ", password := "" }).1
        (runLoginValidators { email := " A@B.CO ", password := "" }).2 :=
  validationFailureRerenders.2.2.2 [] _ (by decide)

/-- C4 counterexample: a login attempt typed with an untrimmed uppercase
email and an empty password is re-rendered at 422 with the trimmed
lowercased email, not the values as the user typed them. -/
theorem validationFailureRerenders_cex :
    login [] { email := " A@B.CO ", password := "" } =
      .render 422 "login" ["Password is required"]
        { email := "a@b.co", password := "" } ∧
    ({ email := "a@b.co", password := "" } : LoginBody) ≠
      { email := " A@B.CO ", password := "" } :=
  ⟨by decide, by decide⟩

end StudentMgmt
